import Mathlib

/-!
Verification development for the Cinn-Math tile-matching puzzle game.

The definitions below are a shallow embedding of the game's core logic:
`gameLogic/matchLogic.ts`, `gameLogic/boardUtils.ts`, `constants.ts` and the
reducer in `state/gameState.ts`.  JavaScript numbers that always hold integers
are modelled as `Int` (or `Nat` for array indices), JS `Set` objects as lists
in insertion order, and the nondeterminism of `Math.random()` and
`crypto.randomUUID()` as explicit oracle parameters.
-/

set_option maxRecDepth 10000

namespace CinnMath

/-- `GameMode` from `types.ts`: selection values are combined by sum or product. -/
inductive GameMode
  | sum
  | multiply
deriving DecidableEq

/-- `Difficulty` from `types.ts`. -/
inductive Difficulty
  | banana
  | apple
  | coconut
deriving DecidableEq

/-- `SelectionMode` from `types.ts`. -/
inductive SelectionMode
  | drag
  | tap
deriving DecidableEq

/-- `GameStatus` from `types.ts`: the internal state machine of the game logic. -/
inductive GameStatus
  | ready
  | playing
  | paused
  | clearing
  | falling
  | gameOver
deriving DecidableEq

/-- `GameScreen` from `types.ts`. -/
inductive GameScreen
  | start
  | game
  | themes
deriving DecidableEq

/-- The `type` discriminator of `TileType` in `types.ts`: `'number' | 'time'`. -/
inductive TileKind
  | number
  | time
deriving DecidableEq

/-- The `value` field of `TileType` in `types.ts`: `number | 'CINNAMOROLL'`. -/
inductive TileValue
  | num (n : Int)
  | cinnamoroll
deriving DecidableEq

/-- `TileType` from `types.ts`. -/
structure TileType where
  id : String
  value : TileValue
  type : TileKind
deriving DecidableEq

/-- The TS cast `tile.value as number`.  In the program this cast is applied only
to tiles whose `type` is `'number'`, which always carry a numeric value; the
`cinnamoroll` branch is therefore never hit by the code paths embedded here. -/
def TileValue.toNum : TileValue → Int
  | .num n => n
  | .cinnamoroll => 0

/-- `Coords` from `types.ts`.  Rows and columns are JS numbers; we use `Int` so
that out-of-range (including negative) coordinates are representable. -/
structure Coords where
  row : Int
  col : Int
deriving DecidableEq

/-- The board type `(TileType | null)[][]` : a list of rows, each a list of cells. -/
abbrev Board := List (List (Option TileType))

/-- `GRID_SIZE` from `constants.ts`. -/
def GRID_SIZE : Nat := 5

/-- `TIME_BONUS` from `constants.ts`. -/
def TIME_BONUS : Int := 10

/-- `DIFFICULTY_SETTINGS[d].initialTime` from `constants.ts`. -/
def initialTime : Difficulty → Int
  | .banana => 75
  | .apple => 60
  | .coconut => 45

/-- JS array indexing `l[i]` with a possibly negative index: any index outside
`[0, l.length)` yields `undefined`, modelled as `none`. -/
def listGet {α : Type} (l : List α) (i : Int) : Option α :=
  if 0 ≤ i then l.get? i.toNat else none

/-- The lookup `board[row]?.[col]` used throughout the source.  A missing row,
a missing column, and a `null` cell all produce a falsy value, collapsed here
into `none`. -/
def tileAt (board : Board) (c : Coords) : Option TileType :=
  match listGet board c.row with
  | none => none
  | some r => (listGet r c.col).join

/-- `calculateSelectionValue` from `gameLogic/matchLogic.ts`. -/
def calculateSelectionValue (coords : List Coords) (board : Board) (mode : GameMode) : Int :=
  let selectedNumberTiles :=
    ((coords.map (fun c => tileAt board c)).reduceOption).filter
      (fun t => t.type == TileKind.number)
  if selectedNumberTiles.length = 0 then
    match mode with
    | .sum => 0
    | .multiply => 1
  else
    match mode with
    | .sum => selectedNumberTiles.foldl (fun s t => s + t.value.toNum) 0
    | .multiply => selectedNumberTiles.foldl (fun p t => p * t.value.toNum) 1

/-- Modelled from the spec: "maps each coordinate to its occupying tile,
discards bonus tiles and empty cells, and folds the remaining number-tile
values with `+` (sum mode, identity 0) or `*` (multiply mode, identity 1)".
Used as the specification side of the refinement claim about
`calculateSelectionValue`. -/
def selectionValueSpec (coords : List Coords) (board : Board) (mode : GameMode) : Int :=
  let vals :=
    (((coords.map (fun c => tileAt board c)).reduceOption).filter
      (fun t => t.type == TileKind.number)).map (fun t => t.value.toNum)
  match mode with
  | .sum => vals.foldl (fun a b => a + b) 0
  | .multiply => vals.foldl (fun a b => a * b) 1

/-- A coordinate lies inside the `GRID_SIZE` × `GRID_SIZE` board. -/
def inBoundsB (c : Coords) : Bool :=
  decide (0 ≤ c.row) && decide (c.row < (GRID_SIZE : Int)) &&
  decide (0 ≤ c.col) && decide (c.col < (GRID_SIZE : Int))

theorem listGet_eq_none_of_length {α : Type} (l : List α) (i : Int)
    (h : ¬ (0 ≤ i ∧ i < (l.length : Int))) : listGet l i = none := by
  unfold listGet
  split
  · next h0 =>
    apply List.get?_eq_none.2
    omega
  · rfl

theorem tileAt_eq_none_of_oob (board : Board) (c : Coords)
    (hb : board.length = GRID_SIZE) (hr : ∀ row ∈ board, row.length = GRID_SIZE)
    (h : inBoundsB c = false) : tileAt board c = none := by
  unfold tileAt
  simp only [inBoundsB, Bool.and_eq_false_iff, decide_eq_false_iff_not, not_le, not_lt] at h
  rcases h with (h | h) | h
  · rcases h with h | h
    · rw [listGet_eq_none_of_length board c.row (by omega)]
    · rw [listGet_eq_none_of_length board c.row (by rw [hb]; omega)]
  · cases hrow : listGet board c.row with
    | none => rfl
    | some r =>
      have hrmem : r ∈ board := by
        unfold listGet at hrow
        split at hrow
        · exact List.get?_mem hrow
        · exact absurd hrow (by simp)
      show (listGet r c.col).join = none
      rw [listGet_eq_none_of_length r c.col (by omega)]
      rfl
  · cases hrow : listGet board c.row with
    | none => rfl
    | some r =>
      have hrmem : r ∈ board := by
        unfold listGet at hrow
        split at hrow
        · exact List.get?_mem hrow
        · exact absurd hrow (by simp)
      show (listGet r c.col).join = none
      rw [listGet_eq_none_of_length r c.col (by rw [hr r hrmem]; omega)]
      rfl

theorem reduceOption_map_filter_inBounds (board : Board) (coords : List Coords)
    (hb : board.length = GRID_SIZE) (hr : ∀ row ∈ board, row.length = GRID_SIZE) :
    ((coords.filter (fun c => inBoundsB c)).map (fun c => tileAt board c)).reduceOption
      = (coords.map (fun c => tileAt board c)).reduceOption := by
  induction coords with
  | nil => rfl
  | cons c rest ih =>
    by_cases hin : inBoundsB c = true
    · simp only [List.filter_cons, hin, if_true, List.map_cons, List.reduceOption_cons_of_some]
      cases htile : tileAt board c with
      | none => simpa [List.reduceOption, htile] using ih
      | some t => simpa [List.reduceOption, htile] using ih
    · have hfalse : inBoundsB c = false := by
        cases hx : inBoundsB c
        · rfl
        · exact absurd hx hin
      have hnone := tileAt_eq_none_of_oob board c hb hr hfalse
      simp only [List.filter_cons, hfalse, Bool.false_eq_true, if_false, List.map_cons, hnone]
      simpa [List.reduceOption] using ih

/-- Claim C5: `calculateSelectionValue` equals the fold with `+` (identity 0, sum
mode) or `*` (identity 1, multiply mode) of the values of the number tiles
occupying the listed coordinates, with bonus tiles and empty cells discarded;
in particular the empty selection and any all-bonus selection yield the
identity element of the mode. -/
theorem calculateSelectionValue_eq_spec (coords : List Coords) (board : Board) (mode : GameMode) :
    calculateSelectionValue coords board mode = selectionValueSpec coords board mode := by
  unfold calculateSelectionValue selectionValueSpec
  set l := ((coords.map (fun c => tileAt board c)).reduceOption).filter
      (fun t => t.type == TileKind.number) with hl
  by_cases h : l.length = 0
  · have hnil : l = [] := List.length_eq_zero.1 h
    cases mode <;> simp [hnil]
  · cases mode <;> simp [h, List.foldl_map]

/-- Claim C10: out-of-bounds coordinates (negative, or at least the side
length, in row or column) are silently discarded by `calculateSelectionValue`,
exactly as empty cells are: the value on any coordinate list equals the value
on the list with the out-of-bounds coordinates removed. -/
theorem calculateSelectionValue_filter_oob (coords : List Coords) (board : Board)
    (mode : GameMode) (hb : board.length = GRID_SIZE)
    (hr : ∀ row ∈ board, row.length = GRID_SIZE) :
    calculateSelectionValue coords board mode
      = calculateSelectionValue (coords.filter (fun c => inBoundsB c)) board mode := by
  unfold calculateSelectionValue
  rw [reduceOption_map_filter_inBounds board coords hb hr]

/-- The `valueIndicator` field of `GameState` in `state/gameState.ts`. -/
structure ValueIndicator where
  visible : Bool
  value : Int
  x : Int
  y : Int
deriving DecidableEq

/-- `ParticleType` from `types.ts`.  Screen quantities are modelled as `Int`;
the reducer only ever removes particles by identifier. -/
structure ParticleType where
  id : String
  x : Int
  y : Int
  size : Int
  dx : Int
  dy : Int
  endScale : Int
deriving DecidableEq

/-- `NumberParticleType` from `types.ts`. -/
structure NumberParticleType where
  id : String
  number : Int
  startX : Int
  startY : Int
  endX : Int
  endY : Int
  delay : Int
deriving DecidableEq

/-- An element of the `announcements` list in `GameState`. -/
structure Announcement where
  text : String
  style : String
  id : String
deriving DecidableEq

/-- `StartGameConfig` from `types.ts`. -/
structure StartGameConfig where
  mode : GameMode
  difficulty : Difficulty
  selectionMode : SelectionMode
deriving DecidableEq

/-- `GameState` from `state/gameState.ts`.  The JS `Set<string>` fields are
modelled as lists of identifiers in insertion order. -/
structure GameState where
  gameScreen : GameScreen
  status : GameStatus
  config : StartGameConfig
  board : Board
  selectedCoords : List Coords
  isSelecting : Bool
  targetNumber : Int
  timeLeft : Int
  score : Int
  bestScore : Int
  comboCount : Int
  comboTimerKey : String
  clearingCoords : List Coords
  droppingTileIds : List String
  fallingOffTimeTileIds : List String
  incorrectSelection : Option String
  isTargetMatched : Bool
  scoreJustUpdated : Bool
  particles : List ParticleType
  numberParticles : List NumberParticleType
  announcements : List Announcement
  showValueIndicator : Bool
  valueIndicator : ValueIndicator
deriving DecidableEq

/-- Oracle inputs for one reducer application: `uuid` stands for the value
`crypto.randomUUID()` returns during the action, `newBoardTiles` for the random
board `createInitialBoard` builds, and the `load*` fields for the
`localStorage` reads and the UUID drawn when the module-level `initialState`
was created. -/
structure Env where
  uuid : String
  newBoardTiles : List (List TileType)
  loadBestScore : Int
  loadShowIndicator : Bool
  loadUuid : String

/-- `initialState` from `state/gameState.ts`. -/
def initialState (env : Env) : GameState :=
  { gameScreen := .start
    status := .ready
    config := ⟨.sum, .banana, .tap⟩
    board := []
    selectedCoords := []
    isSelecting := false
    targetNumber := 0
    timeLeft := 0
    score := 0
    bestScore := env.loadBestScore
    comboCount := 0
    comboTimerKey := env.loadUuid
    clearingCoords := []
    droppingTileIds := []
    fallingOffTimeTileIds := []
    incorrectSelection := none
    isTargetMatched := false
    scoreJustUpdated := false
    particles := []
    numberParticles := []
    announcements := []
    showValueIndicator := env.loadShowIndicator
    valueIndicator := ⟨false, 0, 0, 0⟩ }

/-- The `allIds` component of `createInitialBoard` in `gameLogic/boardUtils.ts`:
the identifiers of every tile of the freshly generated board. -/
def createInitialBoardIds (tiles : List (List TileType)) : List String :=
  tiles.flatten.map (fun t => t.id)

/-- `GameAction` from `state/gameState.ts`. -/
inductive GameAction
  | startGame (config : StartGameConfig)
  | pauseGame
  | resumeGame
  | restartGame
  | returnToMenu
  | navigateThemes
  | navigateBack (screen : GameScreen)
  | tick
  | gameOver
  | pointerDown (payload : Option Coords)
  | pointerMove (coords : Option Coords) (clientX : Int) (clientY : Int)
  | pointerUp
  | matchSuccess (points : Int) (coordsToClear : List Coords)
  | matchFailure
  | finishClearing (nextBoard : Board) (droppedIds : List String)
  | startBonusFall (timeTiles : List String) (timeToAdd : Int)
  | finishBonusFall (nextBoard : Board) (droppedIds : List String)
  | finishTurn (newTarget : Int)
  | resetAnimations
  | addAnnouncement (text : String) (style : Option String)
  | removeAnnouncement (announcementId : String)
  | removeParticle (particleId : String)
  | removeNumberParticle (particleId : String)
  | toggleValueIndicator

/-- `gameReducer` from `state/gameState.ts`.  The `localStorage.setItem` call in
the `MATCH_SUCCESS` case is a boundary side effect with no influence on the
returned state and is not modelled. -/
def gameReducer (env : Env) (state : GameState) (action : GameAction) : GameState :=
  match action with
  | .startGame config =>
      { initialState env with
        gameScreen := .game
        status := .playing
        config := config
        board := env.newBoardTiles.map (fun row => row.map some)
        timeLeft := initialTime config.difficulty
        droppingTileIds := createInitialBoardIds env.newBoardTiles
        bestScore := state.bestScore
        showValueIndicator := state.showValueIndicator }
  | .restartGame =>
      { initialState env with
        gameScreen := .game
        status := .playing
        config := state.config
        board := env.newBoardTiles.map (fun row => row.map some)
        timeLeft := initialTime state.config.difficulty
        droppingTileIds := createInitialBoardIds env.newBoardTiles
        bestScore := state.bestScore
        showValueIndicator := state.showValueIndicator }
  | .pauseGame => { state with status := .paused }
  | .resumeGame => { state with status := .playing }
  | .returnToMenu => { state with gameScreen := .start, status := .ready }
  | .navigateThemes => { state with gameScreen := .themes }
  | .navigateBack screen => { state with gameScreen := screen }
  | .tick => { state with timeLeft := max 0 (state.timeLeft - 1) }
  | .gameOver => { state with status := .gameOver }
  | .pointerDown payload =>
      match payload with
      | none => state
      | some c =>
        if state.status ≠ .playing then state
        else if state.config.selectionMode = .tap then
          let isSelected := state.selectedCoords.any (fun q => q.row == c.row && q.col == c.col)
          let newSelection :=
            if isSelected then
              state.selectedCoords.filter (fun q => q.row != c.row || q.col != c.col)
            else state.selectedCoords ++ [c]
          { state with selectedCoords := newSelection }
        else
          let initialSelection := [c]
          let initialValue := calculateSelectionValue initialSelection state.board state.config.mode
          { state with
            isSelecting := true
            selectedCoords := initialSelection
            valueIndicator := { state.valueIndicator with visible := true, value := initialValue } }
  | .pointerMove coordsOpt clientX clientY =>
      match coordsOpt with
      | none => { state with valueIndicator := { state.valueIndicator with x := clientX, y := clientY } }
      | some coords =>
        if state.isSelecting = false then
          { state with valueIndicator := { state.valueIndicator with x := clientX, y := clientY } }
        else if state.selectedCoords.length = 0 then
          { state with
            valueIndicator := { state.valueIndicator with x := clientX, y := clientY, visible := false } }
        else if 1 < state.selectedCoords.length ∧
            (state.selectedCoords.getD (state.selectedCoords.length - 2) ⟨0, 0⟩).row = coords.row ∧
            (state.selectedCoords.getD (state.selectedCoords.length - 2) ⟨0, 0⟩).col = coords.col then
          let newSelection := state.selectedCoords.dropLast
          let newValue := calculateSelectionValue newSelection state.board state.config.mode
          { state with
            selectedCoords := newSelection
            valueIndicator := ⟨true, newValue, clientX, clientY⟩ }
        else if state.selectedCoords.any (fun q => q.row == coords.row && q.col == coords.col) then
          { state with valueIndicator := { state.valueIndicator with x := clientX, y := clientY } }
        else if ((state.selectedCoords.getD (state.selectedCoords.length - 1) ⟨0, 0⟩).row - coords.row).natAbs ≤ 1 ∧
            ((state.selectedCoords.getD (state.selectedCoords.length - 1) ⟨0, 0⟩).col - coords.col).natAbs ≤ 1 then
          let newSelection := state.selectedCoords ++ [coords]
          let newValue := calculateSelectionValue newSelection state.board state.config.mode
          { state with
            selectedCoords := newSelection
            valueIndicator := ⟨true, newValue, clientX, clientY⟩ }
        else
          { state with valueIndicator := { state.valueIndicator with x := clientX, y := clientY } }
  | .pointerUp =>
      { state with
        isSelecting := false
        valueIndicator := { state.valueIndicator with visible := false } }
  | .matchSuccess points coordsToClear =>
      let newScore := state.score + points
      let newBestScore := max state.bestScore newScore
      { state with
        score := newScore
        bestScore := newBestScore
        scoreJustUpdated := true
        isTargetMatched := true
        comboCount := state.comboCount + 1
        comboTimerKey := env.uuid
        status := .clearing
        selectedCoords := []
        clearingCoords := coordsToClear }
  | .matchFailure =>
      { state with incorrectSelection := some env.uuid, selectedCoords := [] }
  | .finishClearing nextBoard droppedIds =>
      { state with status := .falling, board := nextBoard, droppingTileIds := droppedIds,
                   clearingCoords := [] }
  | .startBonusFall timeTiles timeToAdd =>
      { state with fallingOffTimeTileIds := timeTiles, timeLeft := state.timeLeft + timeToAdd }
  | .finishBonusFall nextBoard droppedIds =>
      { state with board := nextBoard, droppingTileIds := droppedIds,
                   fallingOffTimeTileIds := [] }
  | .finishTurn newTarget =>
      { state with status := .playing, targetNumber := newTarget }
  | .resetAnimations =>
      { state with
        scoreJustUpdated := false
        isTargetMatched := false
        incorrectSelection := none
        droppingTileIds := [] }
  | .addAnnouncement text style =>
      { state with
        announcements := state.announcements ++ [⟨text, style.getD "text-pink-500", env.uuid⟩] }
  | .removeAnnouncement announcementId =>
      { state with announcements := state.announcements.filter (fun a => a.id != announcementId) }
  | .removeParticle particleId =>
      { state with particles := state.particles.filter (fun p => p.id != particleId) }
  | .removeNumberParticle particleId =>
      { state with numberParticles := state.numberParticles.filter (fun p => p.id != particleId) }
  | .toggleValueIndicator =>
      { state with showValueIndicator := !state.showValueIndicator }

/-- A reference environment used for concrete instantiations. -/
def envW : Env :=
  { uuid := "uuid-a", newBoardTiles := [], loadBestScore := 0,
    loadShowIndicator := true, loadUuid := "uuid-0" }

/-- A reference playing state used for concrete instantiations. -/
def stateW : GameState :=
  { gameScreen := .game
    status := .playing
    config := ⟨.sum, .banana, .tap⟩
    board := []
    selectedCoords := []
    isSelecting := false
    targetNumber := 10
    timeLeft := 5
    score := 0
    bestScore := 0
    comboCount := 0
    comboTimerKey := "key-0"
    clearingCoords := []
    droppingTileIds := []
    fallingOffTimeTileIds := []
    incorrectSelection := none
    isTargetMatched := false
    scoreJustUpdated := false
    particles := []
    numberParticles := []
    announcements := []
    showValueIndicator := true
    valueIndicator := ⟨false, 0, 0, 0⟩ }

/-- The reference state, paused. -/
def stateP : GameState := { stateW with status := .paused }

/-- Claim C2 (counterexample): a `Tick` in a non-`Playing` state is not a no-op —
the reducer decrements `timeLeft` without any status guard. -/
theorem tick_unguarded_cx :
    stateP.status ≠ GameStatus.playing ∧ gameReducer envW stateP .tick ≠ stateP := by
  decide

/-- Claim C2 (amended): the reducer guards only the pointer actions: with a
missing coordinate or a status other than `Playing`, `PointerDown` returns the
state unchanged; `Tick`, `PauseGame` and `ResumeGame` apply their effects
unconditionally, with no status precondition (the controller, not the reducer,
keeps the tick timer and the pause menu from firing in the wrong phase). -/
theorem reducer_guards_amended (env : Env) (s t : GameState) (payload : Option Coords)
    (hs : s.status ≠ GameStatus.playing) :
    gameReducer env s (.pointerDown payload) = s ∧
    gameReducer env t .tick = { t with timeLeft := max 0 (t.timeLeft - 1) } ∧
    gameReducer env t .pauseGame = { t with status := .paused } ∧
    gameReducer env t .resumeGame = { t with status := .playing } := by
  refine ⟨?_, rfl, rfl, rfl⟩
  cases payload with
  | none => rfl
  | some c => simp [gameReducer, hs]

theorem reducer_guards_amended_witness :
    stateP.status ≠ GameStatus.playing ∧
    (gameReducer envW stateP (.pointerDown (some ⟨0, 0⟩)) = stateP ∧
     gameReducer envW stateW .tick = { stateW with timeLeft := max 0 (stateW.timeLeft - 1) } ∧
     gameReducer envW stateW .pauseGame = { stateW with status := .paused } ∧
     gameReducer envW stateW .resumeGame = { stateW with status := .playing }) :=
  ⟨by decide, reducer_guards_amended envW stateP stateW (some ⟨0, 0⟩) (by decide)⟩

/-- Claim C7: for every state with status `Playing`, a `Tick` yields
`timeLeft = max 0 (timeLeft - 1)`; hence `timeLeft` never becomes negative, and
once it is `0` further `Tick`s leave it at `0`. -/
theorem tick_timeLeft (env : Env) (s : GameState) (h : s.status = GameStatus.playing) :
    (gameReducer env s .tick).timeLeft = max 0 (s.timeLeft - 1) ∧
    0 ≤ (gameReducer env s .tick).timeLeft ∧
    (s.timeLeft = 0 → (gameReducer env s .tick).timeLeft = 0) := by
  refine ⟨rfl, ?_, ?_⟩
  · exact le_max_left 0 (s.timeLeft - 1)
  · intro h0
    show max 0 (s.timeLeft - 1) = 0
    rw [h0]
    rfl

theorem tick_timeLeft_witness :
    stateW.status = GameStatus.playing ∧
    ((gameReducer envW stateW .tick).timeLeft = max 0 (stateW.timeLeft - 1) ∧
     0 ≤ (gameReducer envW stateW .tick).timeLeft ∧
     (stateW.timeLeft = 0 → (gameReducer envW stateW .tick).timeLeft = 0)) :=
  ⟨by decide, tick_timeLeft envW stateW (by decide)⟩

/-- Claim C8: applying `ResetAnimations` twice in a row yields the same state as
applying it once — the transition is idempotent. -/
theorem resetAnimations_idempotent (env1 env2 : Env) (s : GameState) :
    gameReducer env2 (gameReducer env1 s .resetAnimations) .resetAnimations
      = gameReducer env1 s .resetAnimations := rfl

theorem coords_eq_iff (a b : Coords) : a = b ↔ a.row = b.row ∧ a.col = b.col := by
  cases a
  cases b
  simp

theorem any_coord_mem (l : List Coords) (c : Coords) :
    (l.any (fun q => q.row == c.row && q.col == c.col)) = true ↔ c ∈ l := by
  simp only [List.any_eq_true, Bool.and_eq_true, beq_iff_eq]
  constructor
  · rintro ⟨q, hq, h1, h2⟩
    have hqc : q = c := (coords_eq_iff q c).2 ⟨h1, h2⟩
    rwa [hqc] at hq
  · intro h
    exact ⟨c, h, rfl, rfl⟩

/-- Claim C4: with an active drag selection and a resolved coordinate, a
`PointerMove` pops the last entry when the coordinate equals the second-to-last
selected one; otherwise leaves the selection unchanged when the coordinate is
already selected; otherwise appends it when it is within Chebyshev distance 1
of the last selected coordinate; and otherwise changes nothing except the raw
pointer position of the value indicator. -/
theorem pointerMove_selection (env : Env) (s : GameState) (c : Coords) (cx cy : Int)
    (hsel : s.isSelecting = true) (hne : s.selectedCoords ≠ []) :
    ((1 < s.selectedCoords.length ∧
        s.selectedCoords.getD (s.selectedCoords.length - 2) ⟨0, 0⟩ = c) →
      (gameReducer env s (.pointerMove (some c) cx cy)).selectedCoords
        = s.selectedCoords.dropLast) ∧
    (¬ (1 < s.selectedCoords.length ∧
        s.selectedCoords.getD (s.selectedCoords.length - 2) ⟨0, 0⟩ = c) →
      c ∈ s.selectedCoords →
      gameReducer env s (.pointerMove (some c) cx cy)
        = { s with valueIndicator := { s.valueIndicator with x := cx, y := cy } }) ∧
    (¬ (1 < s.selectedCoords.length ∧
        s.selectedCoords.getD (s.selectedCoords.length - 2) ⟨0, 0⟩ = c) →
      c ∉ s.selectedCoords →
      (((s.selectedCoords.getD (s.selectedCoords.length - 1) ⟨0, 0⟩).row - c.row).natAbs ≤ 1 ∧
       ((s.selectedCoords.getD (s.selectedCoords.length - 1) ⟨0, 0⟩).col - c.col).natAbs ≤ 1) →
      (gameReducer env s (.pointerMove (some c) cx cy)).selectedCoords
        = s.selectedCoords ++ [c]) ∧
    (¬ (1 < s.selectedCoords.length ∧
        s.selectedCoords.getD (s.selectedCoords.length - 2) ⟨0, 0⟩ = c) →
      c ∉ s.selectedCoords →
      ¬ (((s.selectedCoords.getD (s.selectedCoords.length - 1) ⟨0, 0⟩).row - c.row).natAbs ≤ 1 ∧
         ((s.selectedCoords.getD (s.selectedCoords.length - 1) ⟨0, 0⟩).col - c.col).natAbs ≤ 1) →
      gameReducer env s (.pointerMove (some c) cx cy)
        = { s with valueIndicator := { s.valueIndicator with x := cx, y := cy } }) := by
  have hlen0 : ¬ s.selectedCoords.length = 0 := by
    simpa [List.length_eq_zero] using hne
  have hnotsel : ¬ (s.isSelecting = false) := by
    rw [hsel]
    simp
  refine ⟨?_, ?_, ?_, ?_⟩
  · rintro ⟨h1, h2⟩
    have h2' : (s.selectedCoords.getD (s.selectedCoords.length - 2) ⟨0, 0⟩).row = c.row ∧
        (s.selectedCoords.getD (s.selectedCoords.length - 2) ⟨0, 0⟩).col = c.col :=
      (coords_eq_iff _ _).1 h2
    show (gameReducer env s (.pointerMove (some c) cx cy)).selectedCoords = _
    simp only [gameReducer]
    rw [if_neg hnotsel, if_neg hlen0, if_pos ⟨h1, h2'.1, h2'.2⟩]
  · intro hbt hmem
    have hb : ¬ (1 < s.selectedCoords.length ∧
        (s.selectedCoords.getD (s.selectedCoords.length - 2) ⟨0, 0⟩).row = c.row ∧
        (s.selectedCoords.getD (s.selectedCoords.length - 2) ⟨0, 0⟩).col = c.col) := by
      intro ⟨h1, h2, h3⟩
      exact hbt ⟨h1, (coords_eq_iff _ _).2 ⟨h2, h3⟩⟩
    have hany : (s.selectedCoords.any (fun q => q.row == c.row && q.col == c.col)) = true :=
      (any_coord_mem _ _).2 hmem
    show gameReducer env s (.pointerMove (some c) cx cy) = _
    simp only [gameReducer]
    rw [if_neg hnotsel, if_neg hlen0, if_neg hb, if_pos hany]
  · intro hbt hmem hadj
    have hb : ¬ (1 < s.selectedCoords.length ∧
        (s.selectedCoords.getD (s.selectedCoords.length - 2) ⟨0, 0⟩).row = c.row ∧
        (s.selectedCoords.getD (s.selectedCoords.length - 2) ⟨0, 0⟩).col = c.col) := by
      intro ⟨h1, h2, h3⟩
      exact hbt ⟨h1, (coords_eq_iff _ _).2 ⟨h2, h3⟩⟩
    have hany : ¬ (s.selectedCoords.any (fun q => q.row == c.row && q.col == c.col)) = true := by
      rw [any_coord_mem]
      exact hmem
    show (gameReducer env s (.pointerMove (some c) cx cy)).selectedCoords = _
    simp only [gameReducer]
    rw [if_neg hnotsel, if_neg hlen0, if_neg hb, if_neg hany, if_pos hadj]
  · intro hbt hmem hadj
    have hb : ¬ (1 < s.selectedCoords.length ∧
        (s.selectedCoords.getD (s.selectedCoords.length - 2) ⟨0, 0⟩).row = c.row ∧
        (s.selectedCoords.getD (s.selectedCoords.length - 2) ⟨0, 0⟩).col = c.col) := by
      intro ⟨h1, h2, h3⟩
      exact hbt ⟨h1, (coords_eq_iff _ _).2 ⟨h2, h3⟩⟩
    have hany : ¬ (s.selectedCoords.any (fun q => q.row == c.row && q.col == c.col)) = true := by
      rw [any_coord_mem]
      exact hmem
    show gameReducer env s (.pointerMove (some c) cx cy) = _
    simp only [gameReducer]
    rw [if_neg hnotsel, if_neg hlen0, if_neg hb, if_neg hany, if_neg hadj]

/-- The reference state mid-drag, with selection `[(0,0), (0,1)]`. -/
def stateDrag : GameState :=
  { stateW with
    config := ⟨.sum, .banana, .drag⟩
    isSelecting := true
    selectedCoords := [⟨0, 0⟩, ⟨0, 1⟩] }

/-- Claim C4 witness at the backtrack scenario of the claim: selection `[A, B]`
and a move onto `A` pops to `[A]`. -/
theorem pointerMove_selection_witness :
    (stateDrag.isSelecting = true ∧ stateDrag.selectedCoords ≠ [] ∧
      (1 < stateDrag.selectedCoords.length ∧
        stateDrag.selectedCoords.getD (stateDrag.selectedCoords.length - 2) ⟨0, 0⟩ = ⟨0, 0⟩)) ∧
    (gameReducer envW stateDrag (.pointerMove (some ⟨0, 0⟩) 3 4)).selectedCoords
      = stateDrag.selectedCoords.dropLast ∧
    (gameReducer envW stateDrag (.pointerMove (some ⟨0, 0⟩) 3 4)).selectedCoords = [⟨0, 0⟩] :=
  ⟨by decide,
   (pointerMove_selection envW stateDrag ⟨0, 0⟩ 3 4 (by decide) (by decide)).1 (by decide),
   by decide⟩

/-- One `MATCH_SUCCESS` dispatch: the UUID drawn during the action together
with the action payload. -/
structure MatchEvent where
  uuid : String
  points : Int
  coordsToClear : List Coords

/-- Fold a sequence of `MatchSuccess` actions through the reducer. -/
def applyMatches (env : Env) (s : GameState) : List MatchEvent → GameState
  | [] => s
  | m :: rest =>
      applyMatches env
        (gameReducer { env with uuid := m.uuid } s (.matchSuccess m.points m.coordsToClear)) rest

/-- The scores observed after each `MatchSuccess` of the sequence, in order. -/
def scoresAlong (env : Env) (s : GameState) : List MatchEvent → List Int
  | [] => []
  | m :: rest =>
      let s2 := gameReducer { env with uuid := m.uuid } s (.matchSuccess m.points m.coordsToClear)
      s2.score :: scoresAlong env s2 rest

theorem applyMatches_append (env : Env) (s : GameState) (l1 l2 : List MatchEvent) :
    applyMatches env s (l1 ++ l2) = applyMatches env (applyMatches env s l1) l2 := by
  induction l1 generalizing s with
  | nil => rfl
  | cons m rest ih => simpa [applyMatches] using ih _

theorem applyMatches_score_mono (env : Env) (s : GameState) (ms : List MatchEvent)
    (h : ∀ m ∈ ms, 0 ≤ m.points) : s.score ≤ (applyMatches env s ms).score := by
  induction ms generalizing s with
  | nil => exact le_refl _
  | cons m rest ih =>
    have h1 : s.score ≤ s.score + m.points := by
      have := h m (List.mem_cons_self m rest)
      omega
    have h2 := ih (gameReducer { env with uuid := m.uuid } s (.matchSuccess m.points m.coordsToClear))
      (fun x hx => h x (List.mem_cons_of_mem m hx))
    calc s.score ≤ s.score + m.points := h1
      _ ≤ _ := h2

theorem applyMatches_bestScore (env : Env) (s : GameState) (ms : List MatchEvent) :
    (applyMatches env s ms).bestScore = (scoresAlong env s ms).foldl max s.bestScore := by
  induction ms generalizing s with
  | nil => rfl
  | cons m rest ih =>
    show (applyMatches env _ rest).bestScore = _
    rw [ih]
    rfl

/-- Claim C6: over any sequence of `MatchSuccess` actions (whose points are
nonnegative, as every dispatch of the controller is), the score is
non-decreasing — every prefix's score is at most the full sequence's score —
and after any prefix the best score equals the maximum of the starting best
score and every score value seen along that prefix. -/
theorem matchSuccess_score_monotone (env : Env) (s : GameState) (ms : List MatchEvent)
    (h : ∀ m ∈ ms, 0 ≤ m.points) :
    (∀ l1 l2, ms = l1 ++ l2 →
      (applyMatches env s l1).score ≤ (applyMatches env s ms).score) ∧
    (∀ l1 l2, ms = l1 ++ l2 →
      (applyMatches env s l1).bestScore = (scoresAlong env s l1).foldl max s.bestScore) := by
  constructor
  · intro l1 l2 hsplit
    subst hsplit
    rw [applyMatches_append]
    refine applyMatches_score_mono env _ l2 ?_
    intro m hm
    exact h m (List.mem_append_right l1 hm)
  · intro l1 l2 hsplit
    exact applyMatches_bestScore env s l1

/-- A concrete two-match sequence for the C6 witness. -/
def matchesW : List MatchEvent :=
  [⟨"uuid-m1", 7, [⟨0, 0⟩]⟩, ⟨"uuid-m2", 3, [⟨1, 1⟩]⟩]

theorem matchSuccess_score_monotone_witness :
    (∀ m ∈ matchesW, 0 ≤ m.points) ∧
    ((∀ l1 l2, matchesW = l1 ++ l2 →
        (applyMatches envW stateW l1).score ≤ (applyMatches envW stateW matchesW).score) ∧
     (∀ l1 l2, matchesW = l1 ++ l2 →
        (applyMatches envW stateW l1).bestScore
          = (scoresAlong envW stateW l1).foldl max stateW.bestScore)) :=
  ⟨by decide, matchSuccess_score_monotone envW stateW matchesW (by decide)⟩

/-- A number tile (as built by `createNumberTile`). -/
def nt (i : String) (v : Int) : TileType := ⟨i, .num v, .number⟩

/-- A time tile (as built by `createTimeTile`). -/
def tt (i : String) : TileType := ⟨i, .cinnamoroll, .time⟩

/-- A full 5 × 5 board of number tiles, for concrete instantiations. -/
def boardW : Board :=
  (List.range GRID_SIZE).map (fun r =>
    (List.range GRID_SIZE).map (fun c => some (nt (toString (GRID_SIZE * r + c)) 1)))

/-- A coordinate list containing out-of-bounds entries, for the C10 witness. -/
def coordsOob : List Coords := [⟨0, 0⟩, ⟨-1, 2⟩, ⟨7, 0⟩, ⟨2, 9⟩, ⟨4, 4⟩]

theorem calculateSelectionValue_filter_oob_witness :
    (boardW.length = GRID_SIZE ∧ ∀ row ∈ boardW, row.length = GRID_SIZE) ∧
    calculateSelectionValue coordsOob boardW .sum
      = calculateSelectionValue (coordsOob.filter (fun c => inBoundsB c)) boardW .sum :=
  ⟨⟨by decide, by decide⟩,
   calculateSelectionValue_filter_oob coordsOob boardW .sum (by decide) (by decide)⟩

/-- Column `c` of the board, top to bottom (the source addresses cells as
`newBoard[r][c]`). -/
def getCol (board : Board) (c : Nat) : List (Option TileType) :=
  board.map (fun row => (row.get? c).join)

/-- The body of the first inner loop of `applyGravity`: at row `r` (scanning
bottom-up), record the lowest empty spot, or move a tile down into it. -/
def scanStep (col : List (Option TileType)) (emptyRow : Int) (r : Nat) :
    List (Option TileType) × Int :=
  if col.getD r none = none ∧ emptyRow = -1 then (col, (r : Int))
  else if col.getD r none ≠ none ∧ emptyRow ≠ -1 then
    ((col.set emptyRow.toNat (col.getD r none)).set r none, emptyRow - 1)
  else (col, emptyRow)

/-- The first inner loop of `applyGravity`, over the given row indices. -/
def scanRows : List Nat → List (Option TileType) × Int → List (Option TileType) × Int
  | [], st => st
  | r :: rs, (col, emptyRow) => scanRows rs (scanStep col emptyRow r)

/-- The second inner loop of `applyGravity`: fill the given rows with fresh
tiles, recording their identifiers.  `Math.random`-driven tile creation is
modelled by the oracle `fresh`, consumed at the counter in the state. -/
def fillRows (fresh : Nat → TileType) :
    List Nat → List (Option TileType) × List String × Nat →
      List (Option TileType) × List String × Nat
  | [], st => st
  | r :: rs, (col, dropped, k) =>
      let newTile := fresh k
      fillRows fresh rs (col.set r (some newTile), dropped ++ [newTile.id], k + 1)

/-- The whole per-column body of `applyGravity`: scan rows `GRID_SIZE - 1` down
to `0`, then fill rows `emptyRow` down to `0` with fresh tiles. -/
def processColumn (fresh : Nat → TileType) (col : List (Option TileType)) (k : Nat) :
    List (Option TileType) × List String × Nat :=
  match scanRows (List.range GRID_SIZE).reverse (col, -1) with
  | (scannedCol, emptyRow) =>
      fillRows fresh (List.range ((emptyRow + 1).toNat)).reverse (scannedCol, [], k)

/-- One iteration of the outer column loop of `applyGravity`. -/
def gravityStep (fresh : Nat → TileType) (board : Board)
    (acc : List (List (Option TileType)) × List String × Nat) (c : Nat) :
    List (List (Option TileType)) × List String × Nat :=
  match acc with
  | (cols, dropped, k) =>
      match processColumn fresh (getCol board c) k with
      | (newCol, newDropped, k2) => (cols ++ [newCol], dropped ++ newDropped, k2)

/-- Reassemble a board (list of rows) from its list of columns. -/
def fromCols (cols : List (List (Option TileType))) : Board :=
  (List.range GRID_SIZE).map (fun r => cols.map (fun col => col.getD r none))

/-- `applyGravity` from `gameLogic/boardUtils.ts`.  The outer loop touches each
column independently, so it is embedded column by column; `gameMode` and
`difficulty` only parameterize the random tile generation, which the `fresh`
oracle models. -/
def applyGravity (currentBoard : Board) (gameMode : GameMode) (difficulty : Difficulty)
    (fresh : Nat → TileType) : Board × List String :=
  let res := (List.range GRID_SIZE).foldl (gravityStep fresh currentBoard) ([], [], 0)
  (fromCols res.1, res.2.1)

/-- The number of empty cells of a column. -/
def colGap (col : List (Option TileType)) : Nat := GRID_SIZE - col.reduceOption.length

theorem exists_five {α : Type} {l : List α} (h : l.length = 5) :
    ∃ a b c d e, l = [a, b, c, d, e] := by
  rcases l with _ | ⟨a, l⟩
  · simp at h
  rcases l with _ | ⟨b, l⟩
  · simp at h
  rcases l with _ | ⟨c, l⟩
  · simp at h
  rcases l with _ | ⟨d, l⟩
  · simp at h
  rcases l with _ | ⟨e, l⟩
  · simp at h
  rcases l with _ | ⟨f, l⟩
  · exact ⟨a, b, c, d, e, rfl⟩
  · simp at h

set_option maxHeartbeats 4000000 in
/-- The per-column loop, characterized: the surviving tiles are compacted to
the bottom in order, the `colGap` cells above them are filled with the fresh
tiles `fresh k, fresh (k+1), …` from the bottom of the gap upward, and exactly
those tiles' identifiers are recorded, in generation order. -/
theorem processColumn_eq (fresh : Nat → TileType) (col : List (Option TileType)) (k : Nat)
    (h : col.length = GRID_SIZE) :
    processColumn fresh col k =
      ((List.range (colGap col)).reverse.map (fun i => some (fresh (k + i)))
          ++ col.reduceOption.map some,
       (List.range (colGap col)).map (fun i => (fresh (k + i)).id),
       k + colGap col) := by
  obtain ⟨a, b, c, d, e, rfl⟩ := exists_five h
  rcases a with _ | a <;> rcases b with _ | b <;> rcases c with _ | c <;>
    rcases d with _ | d <;> rcases e with _ | e <;> rfl

theorem gravityStep_def (fresh : Nat → TileType) (board : Board)
    (cols : List (List (Option TileType))) (dr : List String) (k : Nat) (c : Nat) :
    gravityStep fresh board (cols, dr, k) c =
      (cols ++ [(processColumn fresh (getCol board c) k).1],
       dr ++ (processColumn fresh (getCol board c) k).2.1,
       (processColumn fresh (getCol board c) k).2.2) := rfl

theorem gravityStep_eq (fresh : Nat → TileType) (board : Board)
    (cols : List (List (Option TileType))) (dr : List String) (k : Nat) (c : Nat)
    (h : (getCol board c).length = GRID_SIZE) :
    gravityStep fresh board (cols, dr, k) c =
      (cols ++ [(List.range (colGap (getCol board c))).reverse.map (fun i => some (fresh (k + i)))
          ++ (getCol board c).reduceOption.map some],
       dr ++ (List.range (colGap (getCol board c))).map (fun i => (fresh (k + i)).id),
       k + colGap (getCol board c)) := by
  rw [gravityStep_def, processColumn_eq fresh (getCol board c) k h]

/-- The fresh-tile counter offset at which column `c` starts drawing tiles. -/
def kOf (board : Board) : Nat → Nat
  | 0 => 0
  | c + 1 => kOf board c + colGap (getCol board c)

/-- The fresh tiles generated for column `c`, in generation order (bottom of
the gap first). -/
def newTilesCol (board : Board) (fresh : Nat → TileType) (c : Nat) : List TileType :=
  (List.range (colGap (getCol board c))).map (fun i => fresh (kOf board c + i))

theorem getCol_length (board : Board) (hb : board.length = GRID_SIZE) (c : Nat) :
    (getCol board c).length = GRID_SIZE := by
  simp [getCol, hb]

/-- `applyGravity`, fully characterized column by column. -/
theorem applyGravity_eq (board : Board) (mode : GameMode) (difficulty : Difficulty)
    (fresh : Nat → TileType) (hb : board.length = GRID_SIZE) :
    applyGravity board mode difficulty fresh =
      (fromCols ((List.range GRID_SIZE).map (fun c =>
          (newTilesCol board fresh c).reverse.map some
            ++ (getCol board c).reduceOption.map some)),
       ((List.range GRID_SIZE).map (fun c =>
          (newTilesCol board fresh c).map (fun t => t.id))).flatten) := by
  have h5 : ∀ c, (getCol board c).length = GRID_SIZE := getCol_length board hb
  simp only [applyGravity]
  rw [show List.range GRID_SIZE = [0, 1, 2, 3, 4] from rfl]
  simp only [List.foldl_cons, List.foldl_nil, List.map_cons, List.map_nil]
  rw [gravityStep_eq fresh board [] [] 0 0 (h5 0)]
  rw [gravityStep_eq fresh board _ _ _ 1 (h5 1)]
  rw [gravityStep_eq fresh board _ _ _ 2 (h5 2)]
  rw [gravityStep_eq fresh board _ _ _ 3 (h5 3)]
  rw [gravityStep_eq fresh board _ _ _ 4 (h5 4)]
  have k1 : kOf board 1 = 0 + colGap (getCol board 0) := rfl
  have k2 : kOf board 2 = 0 + colGap (getCol board 0) + colGap (getCol board 1) := rfl
  have k3 : kOf board 3 = 0 + colGap (getCol board 0) + colGap (getCol board 1)
      + colGap (getCol board 2) := rfl
  have k4 : kOf board 4 = 0 + colGap (getCol board 0) + colGap (getCol board 1)
      + colGap (getCol board 2) + colGap (getCol board 3) := rfl
  have k0 : kOf board 0 = 0 := rfl
  simp only [newTilesCol, k0, k1, k2, k3, k4, List.map_reverse, List.map_map,
    Function.comp_def, List.nil_append, List.append_nil, List.append_assoc,
    List.flatten_cons, List.flatten_nil]
  rfl

theorem newCol_length (board : Board) (fresh : Nat → TileType) (c : Nat)
    (hb : board.length = GRID_SIZE) :
    ((newTilesCol board fresh c).reverse.map some
      ++ (getCol board c).reduceOption.map some).length = GRID_SIZE := by
  have h1 := List.reduceOption_length_le (getCol board c)
  have h2 := getCol_length board hb c
  simp only [List.length_append, List.length_map, List.length_reverse, newTilesCol,
    List.length_range, colGap]
  omega

theorem getCol_fromCols (cols : List (List (Option TileType)))
    (hlen : cols.length = GRID_SIZE)
    (hcols : ∀ l ∈ cols, l.length = GRID_SIZE) (c : Nat) (hc : c < GRID_SIZE) :
    getCol (fromCols cols) c = cols.getD c [] := by
  obtain ⟨A, B, C, D, E, rfl⟩ := exists_five hlen
  have hc5 : c < 5 := hc
  interval_cases c
  · obtain ⟨x0, x1, x2, x3, x4, rfl⟩ := exists_five (hcols A (by simp))
    rfl
  · obtain ⟨x0, x1, x2, x3, x4, rfl⟩ := exists_five (hcols B (by simp))
    rfl
  · obtain ⟨x0, x1, x2, x3, x4, rfl⟩ := exists_five (hcols C (by simp))
    rfl
  · obtain ⟨x0, x1, x2, x3, x4, rfl⟩ := exists_five (hcols D (by simp))
    rfl
  · obtain ⟨x0, x1, x2, x3, x4, rfl⟩ := exists_five (hcols E (by simp))
    rfl

theorem getCol_applyGravity (board : Board) (mode : GameMode) (difficulty : Difficulty)
    (fresh : Nat → TileType) (hb : board.length = GRID_SIZE) (c : Nat) (hc : c < GRID_SIZE) :
    getCol (applyGravity board mode difficulty fresh).1 c
      = (newTilesCol board fresh c).reverse.map some
        ++ (getCol board c).reduceOption.map some := by
  rw [applyGravity_eq board mode difficulty fresh hb]
  rw [getCol_fromCols _ (by simp) ?_ c hc]
  · have hc5 : c < 5 := hc
    interval_cases c <;> rfl
  · intro l hl
    obtain ⟨c2, _, rfl⟩ := List.mem_map.1 hl
    exact newCol_length board fresh c2 hb

/-- The cell of a board at row `r`, column `c` (both 0-based). -/
def cellAt (b : Board) (r c : Nat) : Option TileType := (b.getD r []).getD c none

theorem getD_eq_join_get? (l : List (Option TileType)) (c : Nat) :
    l.getD c none = (l.get? c).join := by
  induction l generalizing c with
  | nil => cases c <;> rfl
  | cons x xs ih =>
    cases c with
    | zero => rfl
    | succ n => exact ih n

theorem cellAt_eq_getCol (b : Board) (r c : Nat) (hrb : r < b.length) :
    cellAt b r c = (getCol b c).getD r none := by
  induction b generalizing r with
  | nil => simp at hrb
  | cons row rest ih =>
    cases r with
    | zero => exact getD_eq_join_get? row c
    | succ n =>
      show cellAt rest n c = (getCol rest c).getD n none
      exact ih n (by simpa using Nat.lt_of_succ_lt_succ (by simpa using hrb))

/-- Claim C3: `applyGravity` processes every column independently: each output
column is the column's pre-existing tiles, compacted to the bottom in their
original top-to-bottom order (hence the multiset of surviving identifiers is
preserved), below a block of freshly generated tiles, and the returned
`droppedTileIds` are exactly the identifiers of those fresh tiles. -/
theorem applyGravity_columns (board : Board) (mode : GameMode) (difficulty : Difficulty)
    (fresh : Nat → TileType) (hb : board.length = GRID_SIZE)
    (hr : ∀ row ∈ board, row.length = GRID_SIZE) :
    ∃ f : Nat → List TileType,
      (∀ c, c < GRID_SIZE →
        getCol (applyGravity board mode difficulty fresh).1 c
          = (f c).reverse.map some ++ (getCol board c).reduceOption.map some) ∧
      (applyGravity board mode difficulty fresh).2
        = ((List.range GRID_SIZE).map (fun c => (f c).map (fun t => t.id))).flatten := by
  refine ⟨newTilesCol board fresh, ?_, ?_⟩
  · intro c hc
    exact getCol_applyGravity board mode difficulty fresh hb c hc
  · rw [applyGravity_eq board mode difficulty fresh hb]

/-- Claim C9: on a full-size board, the board returned by `applyGravity` has no
empty cells — every cell holds a tile.  Every board the controller installs
after clearing or bonus resolution is such an output, which establishes the
spec's no-empty-cells invariant for completed turns. -/
theorem applyGravity_no_empty (board : Board) (mode : GameMode) (difficulty : Difficulty)
    (fresh : Nat → TileType) (hb : board.length = GRID_SIZE)
    (hr : ∀ row ∈ board, row.length = GRID_SIZE) :
    ∀ r, r < GRID_SIZE → ∀ c, c < GRID_SIZE →
      cellAt (applyGravity board mode difficulty fresh).1 r c ≠ none := by
  intro r hrr c hc
  have hboardlen : (applyGravity board mode difficulty fresh).1.length = GRID_SIZE := by
    rw [applyGravity_eq board mode difficulty fresh hb]
    simp [fromCols]
  rw [cellAt_eq_getCol _ r c (by rw [hboardlen]; exact hrr)]
  rw [getCol_applyGravity board mode difficulty fresh hb c hc]
  set L := (newTilesCol board fresh c).reverse.map some
    ++ (getCol board c).reduceOption.map some with hL
  have hlen : L.length = GRID_SIZE := newCol_length board fresh c hb
  have hrL : r < L.length := by rw [hlen]; exact hrr
  have hgetD : L.getD r none = L.get ⟨r, hrL⟩ := by
    rw [getD_eq_join_get? L r, List.get?_eq_get hrL]
    rfl
  have hmem : L.getD r none ∈ L := by
    rw [hgetD]
    exact List.get_mem L r hrL
  intro hnone
  rcases List.mem_append.1 hmem with h | h <;>
  · obtain ⟨y, _, hy⟩ := List.mem_map.1 h
    rw [hnone] at hy
    cases hy

/-- The fresh-tile oracle used for concrete instantiations. -/
def freshW : Nat → TileType := fun k => nt (String.append "fresh-" (toString k)) 9

/-- A 5 × 5 board with a mixed pattern of empty cells, number tiles and time
tiles, for the gravity witnesses. -/
def boardG : Board :=
  [[some (nt "g00" 1), none, some (nt "g02" 3), none, none],
   [some (nt "g10" 2), none, none, some (nt "g13" 4), some (tt "g14")],
   [none, some (nt "g21" 5), some (tt "g22"), some (nt "g23" 6), none],
   [some (nt "g30" 7), none, some (nt "g32" 8), none, some (nt "g34" 9)],
   [none, some (nt "g41" 1), some (nt "g42" 2), some (nt "g43" 3), some (nt "g44" 4)]]

theorem applyGravity_columns_witness :
    (boardG.length = GRID_SIZE ∧ ∀ row ∈ boardG, row.length = GRID_SIZE) ∧
    (∃ f : Nat → List TileType,
      (∀ c, c < GRID_SIZE →
        getCol (applyGravity boardG .sum .banana freshW).1 c
          = (f c).reverse.map some ++ (getCol boardG c).reduceOption.map some) ∧
      (applyGravity boardG .sum .banana freshW).2
        = ((List.range GRID_SIZE).map (fun c => (f c).map (fun t => t.id))).flatten) :=
  ⟨⟨by decide, by decide⟩,
   applyGravity_columns boardG .sum .banana freshW (by decide) (by decide)⟩

theorem applyGravity_no_empty_witness :
    (boardG.length = GRID_SIZE ∧ ∀ row ∈ boardG, row.length = GRID_SIZE) ∧
    (∀ r, r < GRID_SIZE → ∀ c, c < GRID_SIZE →
      cellAt (applyGravity boardG .multiply .apple freshW).1 r c ≠ none) :=
  ⟨⟨by decide, by decide⟩,
   applyGravity_no_empty boardG .multiply .apple freshW (by decide) (by decide)⟩

/-- The `numberTiles` list computed at the top of `findPathForTarget`:
`board.flat().filter(t => !!t && t.type === 'number')`. -/
def boardNumberTiles (board : Board) : List TileType :=
  board.flatten.reduceOption.filter (fun t => t.type == TileKind.number)

/-- The check `board[r][c]?.type === 'number'`. -/
def isNumberAt (board : Board) (c : Coords) : Bool :=
  match tileAt board c with
  | some t => t.type == TileKind.number
  | none => false

/-- The four candidate neighbours of the last path cell, in source order. -/
def neighborCandidates (last : Coords) : List Coords :=
  [⟨last.row - 1, last.col⟩, ⟨last.row + 1, last.col⟩,
   ⟨last.row, last.col - 1⟩, ⟨last.row, last.col + 1⟩]

/-- The neighbour filter of `findPathForTarget`: in bounds, not already in the
path (the source's `visited` set always holds exactly the path's cells), and a
number tile. -/
def validNeighbors (board : Board) (path : List Coords) (last : Coords) : List Coords :=
  (neighborCandidates last).filter
    (fun p => inBoundsB p && decide (p ∉ path) && isNumberAt board p)

/-- The path-growing loop of `findPathForTarget`.  `steps` counts the remaining
iterations (`pathLength - 1` at the start), `i` the iteration index; the random
choice `neighbors[Math.floor(Math.random() * neighbors.length)]` is modelled by
the oracle `pick`, reduced modulo the neighbour count. -/
def extendPath (board : Board) (pick : Nat → Nat) :
    Nat → Nat → List Coords → List Coords
  | 0, _, path => path
  | steps + 1, i, path =>
      let last := path.getLastD ⟨0, 0⟩
      let ns := validNeighbors board path last
      if ns.isEmpty then path
      else extendPath board pick steps (i + 1) (path ++ [ns.getD (pick i % ns.length) ⟨0, 0⟩])

/-- The two `reduce` folds at the bottom of `findPathForTarget`. -/
def reduceTiles (mode : GameMode) (ts : List TileType) : Int :=
  match mode with
  | .sum => ts.foldl (fun s t => s + t.value.toNum) 0
  | .multiply => ts.foldl (fun p t => p * t.value.toNum) 1

/-- `findPathForTarget` from `gameLogic/boardUtils.ts`.  Its randomness is
modelled by oracles: `startCoord` stands for the do-while rejection sampling of
the start cell (whose postcondition, that the start holds a number tile, becomes
a hypothesis of the theorems), `lenIsThree` for `Math.floor(Math.random()*2)+2`
(3 when true, 2 when false), `pick` for the neighbour choices, and `shuffled`
for the randomly sorted copy of `numberTiles` used by the fallback. -/
def findPathForTarget (board : Board) (gameMode : GameMode) (startCoord : Coords)
    (lenIsThree : Bool) (pick : Nat → Nat) (shuffled : List TileType) : Int :=
  let numberTiles := boardNumberTiles board
  if numberTiles.length < 2 then 10
  else
    let pathLength : Nat := if lenIsThree then 3 else 2
    let path := extendPath board pick (pathLength - 1) 0 [startCoord]
    let targetTiles := (path.map (fun p => tileAt board p)).reduceOption
    if targetTiles.length < 2 then
      let randomTiles := shuffled.take 2
      if randomTiles.length < 2 then 10
      else reduceTiles gameMode randomTiles
    else reduceTiles gameMode targetTiles

/-- Four-adjacency of two cells (the walk only moves between 4-neighbours). -/
def adj4 (a b : Coords) : Prop :=
  (a.row - b.row).natAbs + (a.col - b.col).natAbs = 1

instance adj4Decidable (a b : Coords) : Decidable (adj4 a b) :=
  inferInstanceAs (Decidable ((a.row - b.row).natAbs + (a.col - b.col).natAbs = 1))

/-- The tiles occupying the cells of a path, in order. -/
def pathTiles (board : Board) (p : List Coords) : List TileType :=
  (p.map (fun c => tileAt board c)).reduceOption

/-- A contiguous path of 2–3 distinct, pairwise-consecutively-4-adjacent number
tiles existing on the board. -/
def IsNumPath (board : Board) (p : List Coords) : Prop :=
  2 ≤ p.length ∧ p.length ≤ 3 ∧ p.Nodup ∧
  (∀ c ∈ p, isNumberAt board c = true) ∧ p.Chain' adj4

/-- `v` is reachable on `board`: some contiguous path of 2–3 four-adjacent
number tiles combines (by the mode's operation) to `v`. -/
def ReachableTarget (board : Board) (mode : GameMode) (v : Int) : Prop :=
  ∃ p, IsNumPath board p ∧ reduceTiles mode (pathTiles board p) = v

/-- A board with exactly two number tiles (values 2 and 3), at opposite
corners, all other cells time tiles. -/
def boardX : Board :=
  [[some (nt "cx-a" 2), some (tt "x01"), some (tt "x02"), some (tt "x03"), some (tt "x04")],
   [some (tt "x10"), some (tt "x11"), some (tt "x12"), some (tt "x13"), some (tt "x14")],
   [some (tt "x20"), some (tt "x21"), some (tt "x22"), some (tt "x23"), some (tt "x24")],
   [some (tt "x30"), some (tt "x31"), some (tt "x32"), some (tt "x33"), some (tt "x34")],
   [some (tt "x40"), some (tt "x41"), some (tt "x42"), some (tt "x43"), some (nt "cx-b" 3)]]

theorem boardX_number_only (c : Coords) (h : isNumberAt boardX c = true) :
    c = ⟨0, 0⟩ ∨ c = ⟨4, 4⟩ := by
  have hin : inBoundsB c = true := by
    cases hx : inBoundsB c
    · exfalso
      have hno := tileAt_eq_none_of_oob boardX c (by decide) (by decide) hx
      unfold isNumberAt at h
      rw [hno] at h
      simp at h
    · rfl
  obtain ⟨r, cl⟩ := c
  simp only [inBoundsB, GRID_SIZE, Bool.and_eq_true, decide_eq_true_eq] at hin
  obtain ⟨⟨⟨h1, h2⟩, h3⟩, h4⟩ := hin
  have h2' : r < 5 := by exact_mod_cast h2
  have h4' : cl < 5 := by exact_mod_cast h4
  interval_cases r <;> interval_cases cl <;> revert h <;> decide

/-- Claim C1 (counterexample): on a board whose only two number tiles are not
connected by any path, the fallback of `findPathForTarget` still returns their
sum (5), although no contiguous path of 2–3 four-adjacent number tiles reaches
any value at all — the claimed reachability guarantee fails.  All oracle inputs
correspond to a real execution: the start cell holds a number tile and the
shuffle is a permutation of `numberTiles`. -/
theorem findPathForTarget_cx :
    2 ≤ (boardNumberTiles boardX).length ∧
    isNumberAt boardX ⟨0, 0⟩ = true ∧
    (boardNumberTiles boardX).Perm (boardNumberTiles boardX) ∧
    findPathForTarget boardX .sum ⟨0, 0⟩ false (fun _ => 0) (boardNumberTiles boardX) = 5 ∧
    ¬ ReachableTarget boardX .sum 5 := by
  refine ⟨by decide, by decide, List.Perm.refl _, by decide, ?_⟩
  rintro ⟨p, ⟨hlen2, hlen3, hnd, hnum, hch⟩, hv⟩
  rcases p with _ | ⟨a, _ | ⟨b, rest⟩⟩
  · simp at hlen2
  · simp at hlen2
  have hadj : adj4 a b := (List.chain'_cons.1 hch).1
  have ha := boardX_number_only a (hnum a (by simp))
  have hb := boardX_number_only b (hnum b (by simp))
  have hab : a ≠ b := by
    have h1 := (List.nodup_cons.1 hnd).1
    intro he
    exact h1 (by rw [he]; simp)
  rcases ha with rfl | rfl <;> rcases hb with rfl | rfl
  · exact hab rfl
  · revert hadj
    decide
  · revert hadj
    decide
  · exact hab rfl

theorem getD_mem {α : Type} (l : List α) (n : Nat) (d : α) (h : n < l.length) :
    l.getD n d ∈ l := by
  induction l generalizing n with
  | nil => simp at h
  | cons x xs ih =>
    cases n with
    | zero => simp
    | succ m =>
      show xs.getD m d ∈ x :: xs
      exact List.mem_cons_of_mem x (ih m (by simpa using h))

theorem getLastD_eq_of_getLast? {α : Type} {l : List α} {x : α} (d : α)
    (h : l.getLast? = some x) : l.getLastD d = x := by
  induction l generalizing d with
  | nil => simp at h
  | cons a l ih =>
    cases l with
    | nil =>
      simp at h
      simpa using h
    | cons b m =>
      show (b :: m).getLastD a = x
      exact ih a (by rwa [List.getLast?_cons_cons] at h)

theorem adj4_of_candidate (last x : Coords) (h : x ∈ neighborCandidates last) : adj4 last x := by
  simp only [neighborCandidates, List.mem_cons, List.mem_singleton, List.not_mem_nil,
    or_false] at h
  rcases h with rfl | rfl | rfl | rfl <;> simp [adj4]

/-- The walk invariant: starting from a nonempty, duplicate-free, 4-adjacent
chain of number-tile cells, `extendPath` returns such a chain, at least as long
and at most `steps` longer. -/
theorem extendPath_inv (board : Board) (pick : Nat → Nat) :
    ∀ (steps i : Nat) (path : List Coords),
      path ≠ [] →
      (∀ c ∈ path, isNumberAt board c = true) →
      path.Nodup → path.Chain' adj4 →
      (extendPath board pick steps i path ≠ [] ∧
       (∀ c ∈ extendPath board pick steps i path, isNumberAt board c = true) ∧
       (extendPath board pick steps i path).Nodup ∧
       (extendPath board pick steps i path).Chain' adj4 ∧
       path.length ≤ (extendPath board pick steps i path).length ∧
       (extendPath board pick steps i path).length ≤ path.length + steps) := by
  intro steps
  induction steps with
  | zero =>
    intro i path h1 h2 h3 h4
    exact ⟨h1, h2, h3, h4, le_refl _, le_refl _⟩
  | succ n ih =>
    intro i path h1 h2 h3 h4
    simp only [extendPath]
    by_cases hns : (validNeighbors board path (path.getLastD ⟨0, 0⟩)).isEmpty
    · rw [if_pos hns]
      exact ⟨h1, h2, h3, h4, le_refl _, by omega⟩
    · rw [if_neg hns]
      have hnsne : validNeighbors board path (path.getLastD ⟨0, 0⟩) ≠ [] := by
        intro he
        rw [he] at hns
        exact hns rfl
      have hlt : pick i % (validNeighbors board path (path.getLastD ⟨0, 0⟩)).length
          < (validNeighbors board path (path.getLastD ⟨0, 0⟩)).length :=
        Nat.mod_lt _ (List.length_pos.2 hnsne)
      have hxmem : (validNeighbors board path (path.getLastD ⟨0, 0⟩)).getD
          (pick i % (validNeighbors board path (path.getLastD ⟨0, 0⟩)).length) ⟨0, 0⟩
          ∈ validNeighbors board path (path.getLastD ⟨0, 0⟩) :=
        getD_mem _ _ _ hlt
      generalize (validNeighbors board path (path.getLastD ⟨0, 0⟩)).getD
          (pick i % (validNeighbors board path (path.getLastD ⟨0, 0⟩)).length) ⟨0, 0⟩ = x
        at hxmem ⊢
      have hxprops := List.mem_filter.1 hxmem
      have hxc : x ∈ neighborCandidates (path.getLastD ⟨0, 0⟩) := hxprops.1
      have hxb := hxprops.2
      simp only [Bool.and_eq_true, decide_eq_true_eq] at hxb
      obtain ⟨⟨hxin, hxnot⟩, hxnum⟩ := hxb
      have hadjx : adj4 (path.getLastD ⟨0, 0⟩) x :=
        adj4_of_candidate (path.getLastD ⟨0, 0⟩) x hxc
      have h2' : ∀ c ∈ path ++ [x], isNumberAt board c = true := by
        intro c hc
        rcases List.mem_append.1 hc with hmem | hmem
        · exact h2 c hmem
        · simp at hmem
          rw [hmem]
          exact hxnum
      have h3' : (path ++ [x]).Nodup := by
        refine List.nodup_append.2 ⟨h3, List.nodup_singleton x, ?_⟩
        intro a hmem hmem2
        simp at hmem2
        rw [hmem2] at hmem
        exact hxnot hmem
      have h4' : (path ++ [x]).Chain' adj4 := by
        refine List.chain'_append.2 ⟨h4, List.chain'_singleton x, ?_⟩
        intro a ha y hy
        simp at hy
        rw [← hy]
        have hla : path.getLastD ⟨0, 0⟩ = a := getLastD_eq_of_getLast? ⟨0, 0⟩ ha
        rw [← hla]
        exact hadjx
      obtain ⟨g1, g2, g3, g4, g5, g6⟩ := ih (i + 1) (path ++ [x]) (by simp) h2' h3' h4'
      refine ⟨g1, g2, g3, g4, ?_, ?_⟩
      · simp only [List.length_append, List.length_singleton] at g5
        omega
      · simp only [List.length_append, List.length_singleton] at g6
        omega

theorem pathTiles_length (board : Board) (p : List Coords)
    (h : ∀ c ∈ p, isNumberAt board c = true) :
    (p.map (fun c => tileAt board c)).reduceOption.length = p.length := by
  induction p with
  | nil => rfl
  | cons c rest ih =>
    have hc := h c (by simp)
    cases ht : tileAt board c with
    | none =>
      unfold isNumberAt at hc
      rw [ht] at hc
      simp at hc
    | some t =>
      simp only [List.map_cons, ht, List.reduceOption_cons_of_some, List.length_cons]
      rw [ih (fun y hy => h y (by simp [hy]))]

/-- Claim C1 (amended): with at least 2 number tiles on the board,
`findPathForTarget` returns either a value reachable by a contiguous path of
2–3 four-adjacent number tiles existing on the board (when the random walk
finds at least 2 tiles), or — when the walk stalls after a single tile — the
mode's combination of 2 number tiles drawn from the board (a sub-permutation of
its number tiles), which need not be adjacent.  Oracle hypotheses: the start
cell holds a number tile (the do-while's postcondition) and the fallback
shuffle is a permutation of the board's number tiles. -/
theorem findPathForTarget_amended (board : Board) (mode : GameMode) (startCoord : Coords)
    (lenIsThree : Bool) (pick : Nat → Nat) (shuffled : List TileType)
    (hn : 2 ≤ (boardNumberTiles board).length)
    (hs : isNumberAt board startCoord = true)
    (hperm : shuffled.Perm (boardNumberTiles board)) :
    ReachableTarget board mode
        (findPathForTarget board mode startCoord lenIsThree pick shuffled) ∨
    (∃ l, l.Subperm (boardNumberTiles board) ∧ l.length = 2 ∧
      findPathForTarget board mode startCoord lenIsThree pick shuffled
        = reduceTiles mode l) := by
  simp only [findPathForTarget]
  rw [if_neg (by omega)]
  set path := extendPath board pick ((if lenIsThree then 3 else 2) - 1) 0 [startCoord]
    with hpathdef
  obtain ⟨hne, hnum, hnd, hch, hlo, hhi⟩ :=
    extendPath_inv board pick ((if lenIsThree then 3 else 2) - 1) 0 [startCoord]
      (by simp)
      (by
        intro c hc
        simp at hc
        rw [hc]
        exact hs)
      (List.nodup_singleton _) (List.chain'_singleton _)
  rw [← hpathdef] at hne hnum hnd hch hlo hhi
  simp only [List.length_singleton] at hlo hhi
  have htt : (path.map (fun p => tileAt board p)).reduceOption.length = path.length :=
    pathTiles_length board path hnum
  by_cases hcase : (path.map (fun p => tileAt board p)).reduceOption.length < 2
  · rw [if_pos hcase]
    have hsl : shuffled.length = (boardNumberTiles board).length := hperm.length_eq
    have htake : (shuffled.take 2).length = 2 := by
      rw [List.length_take]
      omega
    rw [if_neg (by omega)]
    right
    exact ⟨shuffled.take 2, (List.take_sublist 2 shuffled).subperm.trans hperm.subperm,
      htake, rfl⟩
  · rw [if_neg hcase]
    left
    have hx2 : 2 ≤ (if lenIsThree then (3 : Nat) else 2) := by cases lenIsThree <;> simp
    have hx3 : (if lenIsThree then (3 : Nat) else 2) ≤ 3 := by cases lenIsThree <;> simp
    exact ⟨path, ⟨by omega, by omega, hnd, hnum, hch⟩, rfl⟩

theorem findPathForTarget_amended_witness :
    (2 ≤ (boardNumberTiles boardW).length ∧ isNumberAt boardW ⟨0, 0⟩ = true ∧
      (boardNumberTiles boardW).Perm (boardNumberTiles boardW)) ∧
    (ReachableTarget boardW .sum
        (findPathForTarget boardW .sum ⟨0, 0⟩ true (fun _ => 0) (boardNumberTiles boardW)) ∨
     (∃ l, l.Subperm (boardNumberTiles boardW) ∧ l.length = 2 ∧
        findPathForTarget boardW .sum ⟨0, 0⟩ true (fun _ => 0) (boardNumberTiles boardW)
          = reduceTiles .sum l)) :=
  ⟨⟨by decide, by decide, List.Perm.refl _⟩,
   findPathForTarget_amended boardW .sum ⟨0, 0⟩ true (fun _ => 0) (boardNumberTiles boardW)
     (by decide) (by decide) (List.Perm.refl _)⟩

end CinnMath
